import Mathlib

/-!
Verification of the resource-selection, data-shaping and dependency-linking
logic of `puppetdb_stencil.py`.

The Python code is shallowly embedded: resource records become a `Resource`
structure, parameter values (scalar string or sequence of strings) become the
tagged variant `PValue`, the template engine becomes an explicit pure function
`Dto → String`, the process environment becomes an association list, and the
exceptions that Python indexing / attribute access can raise become an
`Except PyErr` result.  Python string primitives (`in`, `split`, `join`,
`lower`, `upper`, `replace`, slicing) are re-implemented on `List Char` by
plain structural recursion so that every definition is executable and
kernel-reducible.
-/

/-- Python `needle == hay[:len(needle)]` on character lists. -/
def startsW : List Char → List Char → Bool
  | [], _ => true
  | _ :: _, [] => false
  | a :: as, b :: bs => a == b && startsW as bs

/-- Python substring containment `needle in hay` on character lists. -/
def listInfix (n : List Char) : List Char → Bool
  | [] => n.isEmpty
  | c :: hs => startsW n (c :: hs) || listInfix n hs

/-- Python `needle in hay` for strings (substring containment). -/
def strIn (needle hay : String) : Bool := listInfix needle.data hay.data

/-- Python `str.split(sep)` for a single-character separator, on char lists.
`split` on an empty string yields `[[]]`, matching Python. -/
def splitOnChar (c : Char) : List Char → List (List Char)
  | [] => [[]]
  | x :: xs =>
    match splitOnChar c xs with
    | [] => [[]]
    | h :: t => if x == c then [] :: h :: t else (x :: h) :: t

/-- Python `s.split(c)` for strings. -/
def pySplit (c : Char) (s : String) : List String := (splitOnChar c s.data).map String.mk

/-- Python `s.lower()` (ASCII, which is all the program ever feeds it). -/
def pyLower (s : String) : String := String.mk (s.data.map Char.toLower)

/-- Python `s.upper()` (ASCII). -/
def pyUpper (s : String) : String := String.mk (s.data.map Char.toUpper)

/-- Python `s.replace('_', ' ')`: single-character replacement is a char map. -/
def pyReplaceUS (s : String) : String :=
  String.mk (s.data.map (fun c => if c == '_' then ' ' else c))

/-- Python slicing `s[7:]`, as used for `resource_type[7:]`. -/
def strDrop7 (s : String) : String := String.mk (s.data.drop 7)

/-- Python `sep.join(parts)`. -/
def pyJoin (sep : String) : List String → String
  | [] => ""
  | [x] => x
  | x :: y :: t => x ++ sep ++ pyJoin sep (y :: t)

/-- A puppet parameter value: Python duck-types these as either a scalar
string or a list of strings (`isinstance(value, list)` is the discriminator). -/
inductive PValue where
  | str : String → PValue
  | list : List String → PValue
deriving DecidableEq

/-- Discriminator for Python `isinstance(value, list)`. -/
def isList : PValue → Bool
  | .list _ => true
  | .str _ => false

/-- The element list of a sequence value (only consulted when `isList`). -/
def listParts : PValue → List String
  | .list xs => xs
  | .str _ => []

/-- A puppet resource record as consumed by `render_resources`: the code only
reads `.exported`, `.tags`, `.name` and `.parameters`. Parameters model a
Python dict as an association list in insertion order (keys unique in Python). -/
structure Resource where
  name : String
  exported : Bool
  tags : List String
  parameters : List (String × PValue)
deriving DecidableEq

/-- A value stored in the DTO dict handed to `template.render`. -/
inductive DtoField where
  | s : String → DtoField
  | b : Bool → DtoField
  | params : List (List (String × PValue)) → DtoField
deriving DecidableEq

/-- The DTO dict handed to `template.render(dto=dto)`; entries in insertion
order.  The `parameters` entry is a list of small dicts, each again an
association list. -/
structure Dto where
  entries : List (String × DtoField)
deriving DecidableEq

/-- The Python exceptions the dependency pass can raise. -/
inductive PyErr where
  | keyError : String → PyErr
  | attributeError : String → PyErr
  | nameError : String → PyErr
deriving DecidableEq

/-- `METAPARAMS` from the source: the reserved metaparameter tuple. -/
def METAPARAMS : List String :=
  ["require", "before", "subscribe", "notify", "audit", "loglevel", "noop",
   "schedule", "stage", "alias", "tag"]

/-- `ALLOWED_METAPARAMS = ('alias')` from the source: a parenthesised STRING,
not a tuple, so Python `key in ALLOWED_METAPARAMS` is substring containment. -/
def ALLOWED_METAPARAMS : String := "alias"

/-- `NAMED_OBJECTS` from the source. -/
def NAMED_OBJECTS : List String :=
  ["host", "hostgroup", "servicegroup", "servicedependency", "contact",
   "contactgroup", "timeperiod", "command"]

/-- `is_resource_visible(resource, localsite)` from the source, verbatim:
exported, and either no cross-site marker, or `only-cross-site` alone with
`localsite == 'false'`, or `no-cross-site` alone with `localsite == 'true'`. -/
def is_resource_visible (r : Resource) (localsite : String) : Bool :=
  r.exported &&
    ((!(decide ("only-cross-site" ∈ r.tags)) && !(decide ("no-cross-site" ∈ r.tags))) ||
     (decide ("only-cross-site" ∈ r.tags) && !(decide ("no-cross-site" ∈ r.tags)) &&
       decide (localsite = "false")) ||
     (!(decide ("only-cross-site" ∈ r.tags)) && decide ("no-cross-site" ∈ r.tags) &&
       decide (localsite = "true")))

/-- One declared-parameter emission step (source lines 63-66): join a sequence
with `,` when the key passes the metaparameter filter and the value is a list,
otherwise pass the pair through unchanged. -/
def shapeParam (key : String) (value : PValue) : String × PValue :=
  if (!(decide (key ∈ METAPARAMS)) || strIn key ALLOWED_METAPARAMS) && isList value then
    (key, PValue.str (pyJoin "," (listParts value)))
  else
    (key, value)

/-- One iteration of the declared-parameter loop (source lines 63-67):
appends one singleton dict to `dto['parameters']` and one uppercased
`OBJECT_KEY` name to `envs_to_ignore`. -/
def declStep (objectName : String) (acc : List (List (String × PValue)) × List String)
    (kv : String × PValue) : List (List (String × PValue)) × List String :=
  (acc.1 ++ [[shapeParam kv.1 kv.2]], acc.2 ++ [pyUpper (objectName ++ "_" ++ kv.1)])

/-- The declared-parameter loop (source lines 62-67), in record order. -/
def declaredLoop (objectName : String) (ps : List (String × PValue)) :
    List (List (String × PValue)) × List String :=
  ps.foldl (declStep objectName) ([], [])

/-- One iteration of the environment-variable loop (source lines 70-72): an
entry whose name's first `_`-segment lower-cases to the object name and whose
full name is not in `envs_to_ignore` appends a singleton dict with the
remaining segments re-joined and lower-cased as key, and the lower-cased
value. -/
def envStep (objectName : String) (covered : List String)
    (acc : List (List (String × PValue))) (nv : String × String) :
    List (List (String × PValue)) :=
  if decide (pyLower ((pySplit '_' nv.1).headD "") = objectName) &&
     !(decide (nv.1 ∈ covered)) then
    acc ++ [[(pyLower (pyJoin "_" ((pySplit '_' nv.1).drop 1)), PValue.str (pyLower nv.2))]]
  else acc

/-- The environment-variable loop (source lines 69-72). -/
def envLoop (objectName : String) (covered : List String)
    (env : List (String × String)) (init : List (List (String × PValue))) :
    List (List (String × PValue)) :=
  env.foldl (envStep objectName covered) init

/-- The selector DTO built for one visible resource (source lines 56-72). -/
def buildDto (objectName : String) (namedObject : Bool)
    (env : List (String × String)) (r : Resource) : Dto :=
  let dl := declaredLoop objectName r.parameters
  let ps := envLoop objectName dl.2 env dl.1
  ⟨[("object_name", .s objectName), ("named_object", .b namedObject),
    ("name", .s r.name), ("parameters", .params ps)]⟩

/-- The `parameters` entry of a DTO. -/
def dtoParamsOf (d : Dto) : List (List (String × PValue)) :=
  match d.entries.lookup "parameters" with
  | some (.params l) => l
  | _ => []

/-- The service-dependency map built per batch: a Python dict from parent
service description to the children collected so far, in insertion order. -/
abbrev DepMap : Type := List (String × List Resource)

/-- `service_dependencies[k].append(r)`, creating the entry first when the key
is absent (source lines 80-82). -/
def addDep (m : DepMap) (k : String) (r : Resource) : DepMap :=
  if decide (k ∈ (List.map Prod.fst m)) then
    List.map (fun e => if e.1 = k then (e.1, e.2 ++ [r]) else e) m
  else m ++ [(k, [r])]

/-- One tag of the dependency-collection loop (source lines 75-82): a tag
containing `parent:` as a substring and splitting on `:` into exactly two
parts appends the resource under the second part; anything else is ignored. -/
def processTag (r : Resource) (m : DepMap) (tag : String) : DepMap :=
  if strIn "parent:" tag then
    let parts := pySplit ':' tag
    if parts.length = 2 then addDep m (parts.getD 1 "") r else m
  else m

/-- The whole tag loop for one resource; runs whether or not it is visible. -/
def collectTags (r : Resource) (m : DepMap) : DepMap :=
  r.tags.foldl (processTag r) m

/-- The accumulated state of the main resource loop (source lines 52-82). -/
structure SelState where
  config : String
  trace : List Dto
  deps : DepMap

/-- One iteration of the main resource loop: render the DTO when the resource
is visible, then collect its dependency tags either way.  `trace` records the
successive arguments of `template.render`, in call order. -/
def selStep (render : Dto → String) (objectName : String) (namedObject : Bool)
    (env : List (String × String)) (localsite : String)
    (st : SelState) (r : Resource) : SelState :=
  if is_resource_visible r localsite then
    let dto := buildDto objectName namedObject env r
    ⟨st.config ++ render dto ++ "\n", st.trace ++ [dto], collectTags r st.deps⟩
  else
    ⟨st.config, st.trace, collectTags r st.deps⟩

/-- The main resource loop over the fetched batch. -/
def selectorPass (render : Dto → String) (objectName : String) (namedObject : Bool)
    (env : List (String × String)) (localsite : String) (rs : List Resource) : SelState :=
  rs.foldl (selStep render objectName namedObject env localsite) ⟨"", [], []⟩

/-- The `servicedependency` DTO for one (parent, child) pair (source lines
93-100): four dict indexings, each raising `KeyError` when the key is absent,
in the evaluation order of the Python dict literal. -/
def mkDepDto (parent child : Resource) : Except PyErr Dto :=
  match parent.parameters.lookup "host_name" with
  | none => .error (.keyError "host_name")
  | some ph =>
    match parent.parameters.lookup "service_description" with
    | none => .error (.keyError "service_description")
    | some ps =>
      match child.parameters.lookup "host_name" with
      | none => .error (.keyError "host_name")
      | some ch =>
        match child.parameters.lookup "service_description" with
        | none => .error (.keyError "service_description")
        | some cs =>
          .ok ⟨[("object_name", .s "servicedependency"),
                ("parameters", .params
                  [[("host_name", ph), ("service_description", ps),
                    ("dependent_host_name", ch), ("dependent_service_description", cs)]])]⟩

/-- Render the dependency DTOs of all children of one matched parent
(source lines 92-101). -/
def renderChildren (render : Dto → String) (parent : Resource) :
    List Resource → Except PyErr (String × List Dto)
  | [] => .ok ("", [])
  | c :: cs =>
    match mkDepDto parent c with
    | .error e => .error e
    | .ok dto =>
      match renderChildren render parent cs with
      | .error e => .error e
      | .ok rest => .ok (render dto ++ "\n" ++ rest.1, dto :: rest.2)

/-- The `for key, value in parent.parameters.items()` loop (source lines
90-101): only pairs with key `service_description` are examined;
`value.lower()` raises `AttributeError` when the value is a sequence; a
substring match fires the child-rendering loop and iteration continues. -/
def parentPairs (render : Dto → String) (desc : String) (parent : Resource)
    (children : List Resource) :
    List (String × PValue) → Except PyErr (String × List Dto)
  | [] => .ok ("", [])
  | (k, v) :: rest =>
    if k = "service_description" then
      match v with
      | .str s =>
        if strIn desc (pyLower s) then
          match renderChildren render parent children with
          | .error e => .error e
          | .ok out =>
            match parentPairs render desc parent children rest with
            | .error e => .error e
            | .ok restOut => .ok (out.1 ++ restOut.1, out.2 ++ restOut.2)
        else parentPairs render desc parent children rest
      | .list _ => .error (.attributeError "lower")
    else parentPairs render desc parent children rest

/-- The `for parent in resources` loop (source lines 88-101).  The guard on
source line 89 tests `is_resource_visible(resource, localsite)` where
`resource` is the (unchanged) loop variable left over from the main resource
loop — not `parent`. -/
def scanParents (render : Dto → String) (localsite : String) (lastRes : Resource)
    (desc : String) (children : List Resource) :
    List Resource → Except PyErr (String × List Dto)
  | [] => .ok ("", [])
  | parent :: rest =>
    if is_resource_visible lastRes localsite then
      match parentPairs render desc parent children parent.parameters with
      | .error e => .error e
      | .ok a =>
        match scanParents render localsite lastRes desc children rest with
        | .error e => .error e
        | .ok b => .ok (a.1 ++ b.1, a.2 ++ b.2)
    else scanParents render localsite lastRes desc children rest

/-- The `for item in service_dependencies` loop (source lines 85-101): the
parent service description is the map key with `_` replaced by spaces. -/
def depEntries (render : Dto → String) (localsite : String) (lastRes : Resource)
    (resources : List Resource) :
    DepMap → Except PyErr (String × List Dto)
  | [] => .ok ("", [])
  | (k, children) :: rest =>
    match scanParents render localsite lastRes (pyReplaceUS k) children resources with
    | .error e => .error e
    | .ok a =>
      match depEntries render localsite lastRes resources rest with
      | .error e => .error e
      | .ok b => .ok (a.1 ++ b.1, a.2 ++ b.2)

/-- The dependency-resolution pass (source lines 84-101), guarded by
`len(service_dependencies) > 0`.  When the batch was empty yet the map is
non-empty (impossible from this code) Python would raise `NameError` on
`resource`; the embedding mirrors that with `PyErr.nameError`. -/
def depPass (render : Dto → String) (localsite : String) (lastRes : Option Resource)
    (resources : List Resource) (deps : DepMap) : Except PyErr (String × List Dto) :=
  if deps.length > 0 then
    match lastRes with
    | none => .error (.nameError "resource")
    | some r => depEntries render localsite r resources deps
  else .ok ("", [])

/-- `render_resources` (source lines 34-102).  `selectTemplate` stands for
`ENVIRONMENT.select_template` (returning `none` for `TemplatesNotFound`),
`env` for `os.environ`, and `rs` for the fetched batch
`database.resources(resource_type)`.  Returns the log lines emitted and
either a Python exception, or `none` for the implicit `None` return of the
`TemplatesNotFound` branch, or the accumulated `icinga_config` string paired
with the trace of rendered DTOs. -/
def render_resources (selectTemplate : List String → Option (Dto → String))
    (env : List (String × String)) (resource_type : String) (localsite : String)
    (template_names : List String) (rs : List Resource) :
    List String × Except PyErr (Option (String × List Dto)) :=
  match selectTemplate template_names with
  | none => (["No template found for " ++ resource_type], .ok none)
  | some template =>
    let object_name := strDrop7 resource_type
    let named_object := decide (object_name ∈ NAMED_OBJECTS)
    let st := selectorPass template object_name named_object env localsite rs
    match depPass template localsite rs.getLast? rs st.deps with
    | .error e => ([], .error e)
    | .ok dep => ([], .ok (some (st.config ++ dep.1, st.trace ++ dep.2)))

/-- Spec-side: the concatenation of the rendered fragments of a list of DTOs,
each followed by the newline the code appends after every render call. -/
def concatRendered (render : Dto → String) : List Dto → String
  | [] => ""
  | d :: ds => render d ++ "\n" ++ concatRendered render ds

/-- Spec-side: the DTOs the selector renders — one per visible resource, in
batch order. -/
def selTrace (objectName : String) (namedObject : Bool)
    (env : List (String × String)) (localsite : String) (rs : List Resource) : List Dto :=
  (rs.filter (fun r => is_resource_visible r localsite)).map (buildDto objectName namedObject env)

/-- Spec-side: the declared parameters after shaping, each as the singleton
dict the code appends, in record order. -/
def declaredShaped (ps : List (String × PValue)) : List (List (String × PValue)) :=
  ps.map (fun kv => [shapeParam kv.1 kv.2])

/-- Spec-side: the uppercased `OBJECT_KEY` names covered by the declared
parameters (the final contents of `envs_to_ignore`). -/
def coveredNames (objectName : String) (ps : List (String × PValue)) : List String :=
  ps.map (fun kv => pyUpper (objectName ++ "_" ++ kv.1))

/-- Spec-side reading of the dependency map: the children recorded under a
key (first-match dict lookup; absent keys give the empty list). -/
def lookupDep : DepMap → String → List Resource
  | [], _ => []
  | (b, c) :: t, k => if k = b then c else lookupDep t k

/-- Spec-side: the condition under which the tag loop appends a resource
under key `k`: the tag contains `parent:` as a substring and splits on `:`
into exactly two parts, the second being `k`. -/
def tagHit (t k : String) : Bool :=
  strIn "parent:" t && decide ((pySplit ':' t).length = 2) &&
    decide ((pySplit ':' t).getD 1 "" = k)

/-- Spec-side: whether a resource matches a parent service description — its
`service_description` parameter (first-match lookup) is a scalar string whose
lower-casing contains the description as a substring. -/
def pMatches (desc : String) (p : Resource) : Bool :=
  match p.parameters.lookup "service_description" with
  | some (.str s) => strIn desc (pyLower s)
  | _ => false

/-- Spec-side: `pMatches` at the level of a raw parameter list (the scan
examines the first `service_description` pair of the list). -/
def pMatchesL (desc : String) (l : List (String × PValue)) : Bool :=
  match l.lookup "service_description" with
  | some (.str s) => strIn desc (pyLower s)
  | _ => false

/-- Spec-side: the resource carries both parameters the dependency DTO
indexes. -/
def keysOk (r : Resource) : Bool :=
  (r.parameters.lookup "host_name").isSome &&
    (r.parameters.lookup "service_description").isSome

/-- Spec-side: the dependency DTO for a (parent, child) pair, written with
total lookups; it agrees with `mkDepDto` whenever both resources carry the
indexed keys. -/
def mkDepDtoTotal (parent child : Resource) : Dto :=
  ⟨[("object_name", .s "servicedependency"),
    ("parameters", .params
      [[("host_name", (parent.parameters.lookup "host_name").getD (.str "")),
        ("service_description", (parent.parameters.lookup "service_description").getD (.str "")),
        ("dependent_host_name", (child.parameters.lookup "host_name").getD (.str "")),
        ("dependent_service_description", (child.parameters.lookup "service_description").getD (.str ""))]])]⟩

/-- Spec-side: the dependency DTOs the linker should emit for one map entry —
one per (matching parent, collected child) pair, parents scanned over the
full resource list, with no de-duplication. -/
def entryDtos (resources : List Resource) (k : String) (children : List Resource) : List Dto :=
  (resources.filter (pMatches (pyReplaceUS k))).flatMap
    (fun p => children.map (mkDepDtoTotal p))

/-- Spec-side: the dependency DTOs for the whole dependency map, in map
insertion order. -/
def depDtosSpec (resources : List Resource) (deps : DepMap) : List Dto :=
  deps.flatMap (fun e => entryDtos resources e.1 e.2)

/-! ### Concrete fixtures used by witnesses and counterexamples -/

/-- A constant template: every render call yields `X`. -/
def fxTemplate : Dto → String := fun _ => "X"

/-- A template selector that always resolves to `fxTemplate`. -/
def fxSelect : List String → Option (Dto → String) := fun _ => some fxTemplate

/-- A visible parent resource whose `service_description` contains
`db primary check`. -/
def fxP : Resource :=
  ⟨"p", true, [],
   [("service_description", .str "db primary check"), ("host_name", .str "ph")]⟩

/-- A non-exported (hence invisible) child tagged `parent:db_primary_check`,
carrying both dependency keys. -/
def fxCinv : Resource :=
  ⟨"c", false, ["parent:db_primary_check"],
   [("host_name", .str "ch"), ("service_description", .str "cs")]⟩

/-- A visible child tagged `parent:db_primary_check`, carrying both keys. -/
def fxCvis : Resource :=
  ⟨"c", true, ["parent:db_primary_check"],
   [("host_name", .str "ch"), ("service_description", .str "cs")]⟩

/-- A visible child tagged `parent:foo`, carrying both dependency keys; its
own `service_description` (`cs`) does not contain `foo`. -/
def fxChild : Resource :=
  ⟨"c", true, ["parent:foo"],
   [("host_name", .str "ch"), ("service_description", .str "cs")]⟩

/-- A visible resource whose `service_description` parameter is a sequence:
the parent scan calls `.lower()` on it and raises `AttributeError`. -/
def fxBad : Resource := ⟨"r", true, [], [("service_description", .list ["a"])]⟩

/-- A visible child tagged `parent:db_primary_check` that lacks the
`host_name` parameter the dependency DTO indexes. -/
def fxCnok : Resource :=
  ⟨"c", true, ["parent:db_primary_check"], [("service_description", .str "cs")]⟩

/-- A visible resource with no parameters and no tags. -/
def fxPlain : Resource := ⟨"x", true, [], []⟩

/-- A visible resource carrying a single tag `xparent:foo`, which contains
`parent:` as a substring without being of the exact form `parent:<desc>`. -/
def fxTagRes : Resource := ⟨"c", true, ["xparent:foo"], []⟩

/-- A template selector that resolves only the candidate list containing
`nagios_command.jinja2`, to a template rendering `CMD`. -/
def fxSelectC3 : List String → Option (Dto → String) :=
  fun names => if names.contains "nagios_command.jinja2" then some (fun _ => "CMD") else none

/-- A database returning one plain resource for `nagios_command` and nothing
for any other type. -/
def fxFetchC3 : String → List Resource :=
  fun t => if t == "nagios_command" then [⟨"cc", true, [], []⟩] else []

/-- Python `print(x)` of the result of `render_resources`: `print(None)`
writes the literal text `None`, and `print` appends a newline. -/
def printedBlock (x : Option (String × List Dto)) : String :=
  match x with
  | none => "None\n"
  | some s => s.1 ++ "\n"

/-- The `for resource_type in args.resource_types` loop of `main` (source
lines 119-123): candidate templates are the type-derived default followed by
the `--templates` extras, each type's result is printed, and an uncaught
exception aborts the run.  Returns the printed output and the log lines. -/
def main_loop (selectTemplate : List String → Option (Dto → String))
    (env : List (String × String)) (localsite : String) (extra : List String)
    (fetch : String → List Resource) :
    List String → Except PyErr (String × List String)
  | [] => .ok ("", [])
  | t :: ts =>
    let names := (t ++ ".jinja2") :: extra
    let res := render_resources selectTemplate env t localsite names (fetch t)
    match res.2 with
    | .error e => .error e
    | .ok x =>
      match main_loop selectTemplate env localsite extra fetch ts with
      | .error e => .error e
      | .ok rest => .ok (printedBlock x ++ rest.1, res.1 ++ rest.2)

/-! ## Helper lemmas -/

/-- Among the reserved metaparameters, only `alias` is a substring of the
string `ALLOWED_METAPARAMS = 'alias'`. -/
theorem allowKey (key : String) (h : key ∈ METAPARAMS) :
    strIn key ALLOWED_METAPARAMS = true ↔ key = "alias" := by
  simp only [METAPARAMS, List.mem_cons, List.mem_singleton, List.not_mem_nil, or_false] at h
  rcases h with h | h | h | h | h | h | h | h | h | h | h <;> subst h <;> decide

/-- When the left-over loop variable is invisible, every parent iteration of
the scan is skipped. -/
theorem scanParents_not_visible (render : Dto → String) (ls : String) (lastR : Resource)
    (desc : String) (children : List Resource)
    (hv : is_resource_visible lastR ls = false) :
    ∀ parents, scanParents render ls lastR desc children parents = .ok ("", []) := by
  intro parents
  induction parents with
  | nil => rfl
  | cons p rest ih => simp [scanParents, hv, ih]

/-- When the left-over loop variable is invisible, every dependency-map entry
contributes nothing. -/
theorem depEntries_not_visible (render : Dto → String) (ls : String) (lastR : Resource)
    (resources : List Resource)
    (hv : is_resource_visible lastR ls = false) :
    ∀ deps, depEntries render ls lastR resources deps = .ok ("", []) := by
  intro deps
  induction deps with
  | nil => rfl
  | cons e rest ih =>
    obtain ⟨k, children⟩ := e
    simp [depEntries, scanParents_not_visible render ls lastR (pyReplaceUS k) children hv, ih]

/-- When the left-over loop variable is invisible, the whole dependency pass
is a no-op. -/
theorem depPass_not_visible (render : Dto → String) (ls : String) (lastR : Resource)
    (resources : List Resource)
    (hv : is_resource_visible lastR ls = false) :
    ∀ deps, depPass render ls (some lastR) resources deps = .ok ("", []) := by
  intro deps
  by_cases h : deps.length > 0
  · simp [depPass, h, depEntries_not_visible render ls lastR resources hv deps]
  · simp [depPass, h]

/-! ## Claim theorems -/

/-- C1: `is_resource_visible(resource, localsite)` returns true exactly when
the resource is exported and either no cross-site marker is present, or
`only-cross-site` alone is present with `localsite` the literal string
`false`, or `no-cross-site` alone is present with `localsite` the literal
string `true`; in every other case it returns false, and the `localsite`
comparison is literal string equality. -/
theorem c1_visibility (r : Resource) (localsite : String) :
    is_resource_visible r localsite = true ↔
      (r.exported = true ∧
        ((¬ "only-cross-site" ∈ r.tags ∧ ¬ "no-cross-site" ∈ r.tags) ∨
         ("only-cross-site" ∈ r.tags ∧ ¬ "no-cross-site" ∈ r.tags ∧ localsite = "false") ∨
         ("no-cross-site" ∈ r.tags ∧ ¬ "only-cross-site" ∈ r.tags ∧ localsite = "true"))) := by
  simp [is_resource_visible, and_assoc]
  tauto

/-- C4: a declared parameter `(key, value)` is emitted with the sequence
joined by `,` exactly when the key is not a reserved metaparameter or is the
single allow-listed key `alias`, and the value is a sequence; in every other
case the pair is emitted unchanged — the filter never drops the key. -/
theorem c4_param_shaping (key : String) (value : PValue) :
    shapeParam key value =
      if (key ∉ METAPARAMS ∨ key = "alias") ∧ isList value = true
      then (key, PValue.str (pyJoin "," (listParts value)))
      else (key, value) := by
  unfold shapeParam
  by_cases hmp : key ∈ METAPARAMS
  · by_cases hsi : strIn key ALLOWED_METAPARAMS = true
    · have hk : key = "alias" := (allowKey key hmp).mp hsi
      subst hk
      cases value <;> simp [isList, hsi]
    · have hk : key ≠ "alias" := fun h => hsi ((allowKey key hmp).mpr h)
      have hsi' : strIn key ALLOWED_METAPARAMS = false := by
        cases hx : strIn key ALLOWED_METAPARAMS
        · rfl
        · exact absurd hx hsi
      cases value <;> simp [hsi', hmp, hk, isList]
  · cases value <;> simp [hmp, isList]

/-- C9: `render_resources` is deterministic — two calls whose template
selector, environment, resource type, site flag, template-name list and
resource batch coincide return identical results. -/
theorem c9_deterministic
    (st st2 : List String → Option (Dto → String))
    (env env2 : List (String × String)) (rt rt2 ls ls2 : String)
    (tn tn2 : List String) (rs rs2 : List Resource)
    (h1 : st = st2) (h2 : env = env2) (h3 : rt = rt2) (h4 : ls = ls2)
    (h5 : tn = tn2) (h6 : rs = rs2) :
    render_resources st env rt ls tn rs = render_resources st2 env2 rt2 ls2 tn2 rs2 := by
  subst h1; subst h2; subst h3; subst h4; subst h5; subst h6; rfl

/-- Witness for C9 at a concrete input. -/
theorem c9_witness :
    render_resources fxSelect [] "nagios_service" "true" ["n"] [fxP, fxCvis] =
      render_resources fxSelect [] "nagios_service" "true" ["n"] [fxP, fxCvis] :=
  c9_deterministic fxSelect fxSelect [] [] "nagios_service" "nagios_service" "true" "true"
    ["n"] ["n"] [fxP, fxCvis] [fxP, fxCvis] rfl rfl rfl rfl rfl rfl

/-- C2: the dependency-resolution gate tests the visibility of the last
resource of the selector loop, so when that resource is invisible the whole
pass emits nothing — whatever the visibility of the actual parent candidates
— and the returned output is exactly the selector's. -/
theorem c2_dep_gate
    (selectTemplate : List String → Option (Dto → String)) (env : List (String × String))
    (resource_type localsite : String) (template_names : List String)
    (rs : List Resource) (tmpl : Dto → String) (lastR : Resource)
    (h1 : selectTemplate template_names = some tmpl)
    (h2 : rs.getLast? = some lastR)
    (h3 : is_resource_visible lastR localsite = false) :
    render_resources selectTemplate env resource_type localsite template_names rs =
      ([], .ok (some ((selectorPass tmpl (strDrop7 resource_type)
            (decide (strDrop7 resource_type ∈ NAMED_OBJECTS)) env localsite rs).config,
          (selectorPass tmpl (strDrop7 resource_type)
            (decide (strDrop7 resource_type ∈ NAMED_OBJECTS)) env localsite rs).trace))) := by
  unfold render_resources
  rw [h1]
  simp only [h2, depPass_not_visible tmpl localsite lastR rs h3]
  simp

/-- Witness for C2: a batch ending in an invisible resource while a visible
matching parent candidate exists. -/
theorem c2_witness :
    fxSelect ["n"] = some fxTemplate ∧
    ([fxP, fxCinv].getLast? = some fxCinv) ∧
    is_resource_visible fxCinv "true" = false ∧
    render_resources fxSelect [] "nagios_service" "true" ["n"] [fxP, fxCinv] =
      ([], .ok (some ((selectorPass fxTemplate (strDrop7 "nagios_service")
            (decide (strDrop7 "nagios_service" ∈ NAMED_OBJECTS)) [] "true" [fxP, fxCinv]).config,
          (selectorPass fxTemplate (strDrop7 "nagios_service")
            (decide (strDrop7 "nagios_service" ∈ NAMED_OBJECTS)) [] "true" [fxP, fxCinv]).trace))) :=
  ⟨rfl, rfl, by decide,
    c2_dep_gate fxSelect [] "nagios_service" "true" ["n"] [fxP, fxCinv] fxTemplate fxCinv
      rfl rfl (by decide)⟩

/-! ## Loop characterization lemmas -/

/-- The declared-parameter loop is the pair of `declaredShaped` and
`coveredNames`, modulo the accumulator. -/
theorem declaredLoop_acc (o : String) :
    ∀ (ps : List (String × PValue)) (init : List (List (String × PValue)) × List String),
      ps.foldl (declStep o) init = (init.1 ++ declaredShaped ps, init.2 ++ coveredNames o ps) := by
  intro ps
  induction ps with
  | nil => intro init; simp [declaredShaped, coveredNames]
  | cons kv rest ih =>
    intro init
    simp only [List.foldl_cons, declStep]
    rw [ih]
    simp [declaredShaped, coveredNames, List.append_assoc]

/-- `declaredLoop` characterized. -/
theorem declaredLoop_eq (o : String) (ps : List (String × PValue)) :
    declaredLoop o ps = (declaredShaped ps, coveredNames o ps) := by
  simp [declaredLoop, declaredLoop_acc]

/-- `envStep` when the entry qualifies. -/
theorem envStep_pos (o : String) (c : List String) (nv : String × String)
    (acc : List (List (String × PValue)))
    (h : (decide (pyLower ((pySplit '_' nv.1).headD "") = o) &&
      !(decide (nv.1 ∈ c))) = true) :
    envStep o c acc nv =
      acc ++ [[(pyLower (pyJoin "_" ((pySplit '_' nv.1).drop 1)),
        PValue.str (pyLower nv.2))]] := by
  unfold envStep
  rw [h]
  rfl

/-- `envStep` when the entry does not qualify. -/
theorem envStep_neg (o : String) (c : List String) (nv : String × String)
    (acc : List (List (String × PValue)))
    (h : (decide (pyLower ((pySplit '_' nv.1).headD "") = o) &&
      !(decide (nv.1 ∈ c))) = false) :
    envStep o c acc nv = acc := by
  unfold envStep
  rw [h]
  rfl

/-- The environment loop factors out its accumulator. -/
theorem envLoop_acc (o : String) (c : List String) :
    ∀ (env : List (String × String)) (init : List (List (String × PValue))),
      envLoop o c env init = init ++ envLoop o c env []
  | [], init => by simp [envLoop]
  | nv :: rest, init => by
    show List.foldl (envStep o c) (envStep o c init nv) rest =
      init ++ List.foldl (envStep o c) (envStep o c [] nv) rest
    cases h : (decide (pyLower ((pySplit '_' nv.1).headD "") = o) &&
        !(decide (nv.1 ∈ c))) with
    | false =>
      rw [envStep_neg o c nv init h, envStep_neg o c nv [] h]
      exact envLoop_acc o c rest init
    | true =>
      rw [envStep_pos o c nv init h, envStep_pos o c nv [] h, List.nil_append]
      show envLoop o c rest _ = init ++ envLoop o c rest _
      rw [envLoop_acc o c rest
          (init ++ [[(pyLower (pyJoin "_" ((pySplit '_' nv.1).drop 1)),
            PValue.str (pyLower nv.2))]]),
        envLoop_acc o c rest
          [[(pyLower (pyJoin "_" ((pySplit '_' nv.1).drop 1)),
            PValue.str (pyLower nv.2))]]]
      simp [List.append_assoc]

/-- The dtoParams entry of the selector DTO is the raw loop output. -/
theorem dtoParamsOf_buildDto (o : String) (n : Bool) (env : List (String × String))
    (r : Resource) :
    dtoParamsOf (buildDto o n env r) =
      envLoop o (declaredLoop o r.parameters).2 env (declaredLoop o r.parameters).1 := rfl

/-- The selector loop characterized: the rendered text is the concatenation
over the trace, the trace is one DTO per visible resource in order, and the
dependency map is the tag fold over all resources. -/
theorem selectorPass_acc (render : Dto → String) (o : String) (n : Bool)
    (env : List (String × String)) (ls : String) :
    ∀ (rs : List Resource) (st : SelState),
      rs.foldl (selStep render o n env ls) st =
        ⟨st.config ++ concatRendered render (selTrace o n env ls rs),
         st.trace ++ selTrace o n env ls rs,
         rs.foldl (fun m r => collectTags r m) st.deps⟩ := by
  intro rs
  induction rs with
  | nil => intro st; simp [selTrace, concatRendered]
  | cons r rest ih =>
    intro st
    simp only [List.foldl_cons]
    by_cases hv : is_resource_visible r ls = true
    · rw [show selStep render o n env ls st r =
          ⟨st.config ++ render (buildDto o n env r) ++ "\n",
           st.trace ++ [buildDto o n env r], collectTags r st.deps⟩
        from by simp [selStep, hv]]
      rw [ih]
      simp [selTrace, concatRendered, hv, List.filter_cons, String.append_assoc,
        List.append_assoc]
    · have hv2 : is_resource_visible r ls = false := by
        cases h : is_resource_visible r ls
        · rfl
        · exact absurd h hv
      rw [show selStep render o n env ls st r = ⟨st.config, st.trace, collectTags r st.deps⟩
        from by simp [selStep, hv2]]
      rw [ih]
      simp [selTrace, List.filter_cons, hv2]

/-- `selectorPass` characterized. -/
theorem selectorPass_char (render : Dto → String) (o : String) (n : Bool)
    (env : List (String × String)) (ls : String) (rs : List Resource) :
    selectorPass render o n env ls rs =
      ⟨concatRendered render (selTrace o n env ls rs),
       selTrace o n env ls rs,
       rs.foldl (fun m r => collectTags r m) []⟩ := by
  have h := selectorPass_acc render o n env ls rs ⟨"", [], []⟩
  simpa [selectorPass] using h

/-- C8: the DTO parameter sequence lists the shaped declared parameters
first, in record order, followed by the environment-derived ones, and the
DTOs handed to the renderer (the trace) are exactly those built per visible
resource, preserving this order. -/
theorem c8_param_order (render : Dto → String) (o : String) (n : Bool)
    (env : List (String × String)) (ls : String) (rs : List Resource) :
    (selectorPass render o n env ls rs).trace = selTrace o n env ls rs ∧
    ∀ r : Resource, dtoParamsOf (buildDto o n env r) =
      declaredShaped r.parameters ++ envLoop o (coveredNames o r.parameters) env [] := by
  constructor
  · rw [selectorPass_char]
  · intro r
    rw [dtoParamsOf_buildDto, declaredLoop_eq]
    exact envLoop_acc o (coveredNames o r.parameters) env (declaredShaped r.parameters)

/-- C5 counterexample: for object name `Host` (from resource type
`nagios_Host`), the environment variable `HOST_LOCATION` has first segment
case-insensitively equal to the object name and is not covered, yet the code
adds no parameter at all: the comparison lower-cases only the segment, not
the object name. -/
theorem c5_counterexample :
    dtoParamsOf (buildDto "Host" false [("HOST_LOCATION", "RACK7")] fxPlain) = [] ∧
    pyLower ((pySplit '_' "HOST_LOCATION").headD "") = pyLower "Host" ∧
    strDrop7 "nagios_Host" = "Host" ∧
    is_resource_visible fxPlain "true" = true :=
  ⟨rfl, rfl, rfl, rfl⟩

/-- C5 (amended): an environment entry contributes one parameter exactly when
its name's first `_`-segment, lower-cased, equals the object name and the
name is not the uppercased `OBJECT_KEY` form of any declared parameter; the
contributed key is the remaining segments re-joined and lower-cased and the
value is lower-cased.  Covered names are suppressed, so an environment
variable never overrides a declared parameter. -/
theorem c5_env_params (o : String) (ps : List (String × PValue))
    (env : List (String × String)) :
    envLoop o (coveredNames o ps) env [] =
      env.filterMap (fun nv =>
        if pyLower ((pySplit '_' nv.1).headD "") = o ∧
            (∀ kv ∈ ps, nv.1 ≠ pyUpper (o ++ "_" ++ kv.1))
        then some [(pyLower (pyJoin "_" ((pySplit '_' nv.1).drop 1)),
          PValue.str (pyLower nv.2))]
        else none) := by
  induction env with
  | nil => rfl
  | cons nv rest ih =>
    rw [List.filterMap_cons]
    show List.foldl (envStep o (coveredNames o ps))
      (envStep o (coveredNames o ps) [] nv) rest = _
    cases h : (decide (pyLower ((pySplit '_' nv.1).headD "") = o) &&
        !(decide (nv.1 ∈ coveredNames o ps))) with
    | false =>
      rw [envStep_neg _ _ _ _ h]
      have hcond : ¬(pyLower ((pySplit '_' nv.1).headD "") = o ∧
          ∀ kv ∈ ps, nv.1 ≠ pyUpper (o ++ "_" ++ kv.1)) := by
        intro hc
        have hnm : ¬ nv.1 ∈ coveredNames o ps := by
          intro hm
          simp only [coveredNames, List.mem_map] at hm
          obtain ⟨kv, hkv, hEq⟩ := hm
          exact hc.2 kv hkv hEq.symm
        rw [decide_eq_true hc.1, decide_eq_false hnm] at h
        simp at h
      rw [if_neg hcond]
      exact ih
    | true =>
      rw [envStep_pos _ _ _ _ h]
      have h2 := h
      simp only [Bool.and_eq_true, decide_eq_true_eq, Bool.not_eq_true',
        decide_eq_false_iff_not] at h2
      have hcond : pyLower ((pySplit '_' nv.1).headD "") = o ∧
          ∀ kv ∈ ps, nv.1 ≠ pyUpper (o ++ "_" ++ kv.1) := by
        refine ⟨h2.1, ?_⟩
        intro kv hkv hEq
        apply h2.2
        simp only [coveredNames, List.mem_map]
        exact ⟨kv, hkv, hEq.symm⟩
      rw [if_pos hcond, List.nil_append]
      show envLoop o (coveredNames o ps) rest _ = _
      rw [envLoop_acc, ih]
      simp

/-! ## Dependency-map lemmas -/

/-- Updating entries for an absent key changes nothing. -/
theorem updMap_id (k : String) (r : Resource) :
    ∀ (t : DepMap), ¬ k ∈ List.map Prod.fst t →
      List.map (fun e => if e.1 = k then (e.1, e.2 ++ [r]) else e) t = t := by
  intro t
  induction t with
  | nil => intro _; rfl
  | cons e rest ih =>
    intro ht
    simp only [List.map_cons, List.mem_cons] at ht
    push_neg at ht
    simp only [List.map_cons]
    rw [if_neg (fun h => ht.1 h.symm), ih ht.2]

/-- `addDep` appends the resource to the looked-up entry of its key and
leaves every other key's entry unchanged. -/
theorem lookupDep_addDep (k : String) (r : Resource) (q : String) :
    ∀ (m : DepMap), lookupDep (addDep m k r) q =
      lookupDep m q ++ if q = k then [r] else [] := by
  intro m
  induction m with
  | nil =>
    have ha : addDep [] k r = [(k, [r])] := by
      unfold addDep
      rw [decide_eq_false (by simp : ¬ k ∈ List.map Prod.fst ([] : DepMap))]
      rfl
    rw [ha]
    by_cases hq : q = k
    · simp [lookupDep, hq]
    · simp [lookupDep, hq]
  | cons e rest ih =>
    obtain ⟨b, c⟩ := e
    by_cases hk : k ∈ List.map Prod.fst ((b, c) :: rest)
    · have ha : addDep ((b, c) :: rest) k r =
          (if b = k then (b, c ++ [r]) else (b, c)) ::
            List.map (fun e => if e.1 = k then (e.1, e.2 ++ [r]) else e) rest := by
        unfold addDep
        rw [decide_eq_true hk]
        rfl
      rw [ha]
      by_cases hbk : b = k
      · subst hbk
        rw [if_pos rfl]
        by_cases hq : q = b
        · subst hq
          simp [lookupDep]
        · simp only [lookupDep, if_neg hq]
          by_cases hkr : b ∈ List.map Prod.fst rest
          · have hu : List.map (fun e => if e.1 = b then (e.1, e.2 ++ [r]) else e) rest =
                addDep rest b r := by
              unfold addDep
              rw [decide_eq_true hkr]
              rfl
            rw [hu, ih]
            simp [hq]
          · rw [updMap_id b r rest hkr]
            simp [hq]
      · rw [if_neg hbk]
        have hkr : k ∈ List.map Prod.fst rest := by
          simp only [List.map_cons, List.mem_cons] at hk
          rcases hk with h | h
          · exact absurd h.symm hbk
          · exact h
        by_cases hq : q = b
        · subst hq
          simp [lookupDep, hbk]
        · simp only [lookupDep, if_neg hq]
          have hu : List.map (fun e => if e.1 = k then (e.1, e.2 ++ [r]) else e) rest =
              addDep rest k r := by
            unfold addDep
            rw [decide_eq_true hkr]
            rfl
          rw [hu, ih]
    · have ha : addDep ((b, c) :: rest) k r = (b, c) :: (rest ++ [(k, [r])]) := by
        unfold addDep
        rw [decide_eq_false hk]
        rfl
      rw [ha]
      have hbk : b ≠ k := by
        intro h
        apply hk
        simp only [List.map_cons, List.mem_cons]
        exact Or.inl h.symm
      have hkr : ¬ k ∈ List.map Prod.fst rest := by
        intro h
        apply hk
        simp only [List.map_cons, List.mem_cons]
        exact Or.inr h
      by_cases hq : q = b
      · subst hq
        simp [lookupDep, hbk]
      · simp only [lookupDep, if_neg hq]
        have hu : rest ++ [(k, [r])] = addDep rest k r := by
          unfold addDep
          rw [decide_eq_false hkr]
          rfl
        rw [hu, ih]

/-- One tag appends the resource under key `q` exactly when `tagHit` holds. -/
theorem lookupDep_processTag (r : Resource) (m : DepMap) (t q : String) :
    lookupDep (processTag r m t) q =
      lookupDep m q ++ if tagHit t q = true then [r] else [] := by
  unfold processTag
  by_cases h1 : strIn "parent:" t = true
  · rw [if_pos h1]
    by_cases h2 : (pySplit ':' t).length = 2
    · rw [if_pos h2, lookupDep_addDep]
      by_cases h3 : q = (pySplit ':' t).getD 1 ""
      · have hb : tagHit t q = true := by
          unfold tagHit
          rw [h1, decide_eq_true h2, decide_eq_true h3.symm]
          rfl
        rw [if_pos h3, if_pos hb]
      · have hb : tagHit t q = false := by
          unfold tagHit
          rw [h1, decide_eq_true h2, decide_eq_false (fun h => h3 h.symm)]
          rfl
        rw [if_neg h3, hb]
        simp
    · have hb : tagHit t q = false := by
        unfold tagHit
        rw [decide_eq_false h2]
        simp
      rw [if_neg h2, hb]
      simp
  · have h1f : strIn "parent:" t = false := by
      cases hx : strIn "parent:" t
      · rfl
      · exact absurd hx h1
    have hb : tagHit t q = false := by
      unfold tagHit
      rw [h1f]
      simp
    rw [if_neg h1, hb]
    simp

/-- The whole tag loop of one resource, characterized per key. -/
theorem lookupDep_collectTags (r : Resource) (q : String) :
    ∀ (tags : List String) (m : DepMap),
      lookupDep (tags.foldl (processTag r) m) q =
        lookupDep m q ++
          tags.filterMap (fun t => if tagHit t q = true then some r else none) := by
  intro tags
  induction tags with
  | nil => intro m; simp
  | cons t rest ih =>
    intro m
    simp only [List.foldl_cons, List.filterMap_cons]
    rw [ih (processTag r m t), lookupDep_processTag]
    cases h : tagHit t q <;> simp [h, List.append_assoc]

/-- The dependency map accumulated over a whole batch, characterized per
key: the children under `q` are the resources listed once per qualifying
tag, in iteration order, visible or not. -/
theorem lookupDep_batch (q : String) :
    ∀ (rs : List Resource) (m : DepMap),
      lookupDep (rs.foldl (fun m2 r => collectTags r m2) m) q =
        lookupDep m q ++
          rs.flatMap (fun r =>
            r.tags.filterMap (fun t => if tagHit t q = true then some r else none)) := by
  intro rs
  induction rs with
  | nil => intro m; simp
  | cons r rest ih =>
    intro m
    simp only [List.foldl_cons, List.flatMap_cons]
    rw [ih (collectTags r m)]
    unfold collectTags
    rw [lookupDep_collectTags]
    simp [List.append_assoc]

/-- C6 counterexample: the tag `xparent:foo` is not of the exact two-part
form `parent:<service-description>` — it is not `parent:` followed by a
description — yet the resource carrying it is appended to the dependency map
under the key `foo`. -/
theorem c6_counterexample :
    lookupDep (selectorPass fxTemplate "service" false [] "true" [fxTagRes]).deps "foo" =
      [fxTagRes] ∧
    ¬ ∃ d : String, "xparent:foo" = "parent:" ++ d := by
  constructor
  · rfl
  · rintro ⟨d, hd⟩
    have h2 := congrArg String.data hd
    rw [String.data_append] at h2
    exact absurd (show ('x' : Char) = 'p' from congrArg (fun l => List.headD l ' ') h2)
      (by decide)

/-- C6 (amended): for every resource of the batch, visible or not, and every
one of its tags, the resource is appended to the dependency map exactly when
the tag contains `parent:` as a substring and splits on `:` into exactly two
parts (`tagHit`), under the key given by the part after the colon; tags with
any other number of colon-separated parts are silently ignored and raise no
error. -/
theorem c6_dep_collection (render : Dto → String) (o : String) (n : Bool)
    (env : List (String × String)) (ls : String) (rs : List Resource) (k : String) :
    lookupDep (selectorPass render o n env ls rs).deps k =
      rs.flatMap (fun r =>
        r.tags.filterMap (fun t => if tagHit t k = true then some r else none)) := by
  rw [selectorPass_char]
  show lookupDep (List.foldl (fun m2 r => collectTags r m2) [] rs) k = _
  rw [lookupDep_batch]
  rfl

/-- C3: when no template resolves for a type, `render_resources` returns
without raising, logs exactly one error, and returns Python `None`; in the
same invocation the other type still renders.  But `main` prints that `None`
return, so the failing type contributes the literal line `None` to standard
output rather than no text. -/
theorem c3_template_not_found :
    render_resources fxSelectC3 [] "nagios_host" "true" ["nagios_host.jinja2"] [] =
      (["No template found for nagios_host"], .ok none) ∧
    main_loop fxSelectC3 [] "true" [] fxFetchC3 ["nagios_host", "nagios_command"] =
      .ok ("None\nCMD\n\n", ["No template found for nagios_host"]) :=
  ⟨rfl, rfl⟩

/-! ## Dependency-pass success lemmas -/

/-- `mkDepDto` succeeds, yielding the total DTO, when both resources carry
the indexed keys. -/
theorem mkDepDto_ok (p c : Resource) (hp : keysOk p = true) (hc : keysOk c = true) :
    mkDepDto p c = .ok (mkDepDtoTotal p c) := by
  unfold keysOk at hp hc
  rw [Bool.and_eq_true] at hp hc
  obtain ⟨hp1, hp2⟩ := hp
  obtain ⟨hc1, hc2⟩ := hc
  rw [Option.isSome_iff_exists] at hp1 hp2 hc1 hc2
  obtain ⟨ph, hph⟩ := hp1
  obtain ⟨ps, hps⟩ := hp2
  obtain ⟨ch, hchn⟩ := hc1
  obtain ⟨cs, hcs⟩ := hc2
  unfold mkDepDto mkDepDtoTotal
  rw [hph, hps, hchn, hcs]
  rfl

/-- `renderChildren` succeeds over children that carry the indexed keys. -/
theorem renderChildren_ok (render : Dto → String) (p : Resource)
    (hp : keysOk p = true) :
    ∀ children, (∀ c ∈ children, keysOk c = true) →
      renderChildren render p children =
        .ok (concatRendered render (children.map (mkDepDtoTotal p)),
             children.map (mkDepDtoTotal p)) := by
  intro children
  induction children with
  | nil => intro _; rfl
  | cons c cs ih =>
    intro h
    unfold renderChildren
    rw [mkDepDto_ok p c hp (h c (List.mem_cons_self c cs)),
      ih (fun d hd => h d (List.mem_cons_of_mem c hd))]
    rfl

/-- First-match dict lookup skips a pair with a different key. -/
theorem lookup_cons_ne (a k : String) (v : PValue) (rest : List (String × PValue))
    (h : ¬ a = k) :
    List.lookup a ((k, v) :: rest) = List.lookup a rest := by
  simp [List.lookup, beq_eq_false_iff_ne.mpr h]

/-- `pMatchesL` ignores a leading pair with a different key. -/
theorem pMatchesL_cons_ne (desc k : String) (v : PValue) (rest : List (String × PValue))
    (hk : ¬ k = "service_description") :
    pMatchesL desc ((k, v) :: rest) = pMatchesL desc rest := by
  unfold pMatchesL
  rw [lookup_cons_ne _ _ _ _ (fun h => hk h.symm)]

/-- The pairs loop yields nothing when the list has no
`service_description` key at all. -/
theorem parentPairs_no_sd (render : Dto → String) (desc : String) (p : Resource)
    (children : List Resource) :
    ∀ l, ¬ "service_description" ∈ List.map Prod.fst l →
      parentPairs render desc p children l = .ok ("", []) := by
  intro l
  induction l with
  | nil => intro _; rfl
  | cons kv rest ih =>
    intro h
    obtain ⟨k, v⟩ := kv
    simp only [List.map_cons, List.mem_cons] at h
    push_neg at h
    unfold parentPairs
    rw [if_neg (fun hk => h.1 hk.symm)]
    exact ih h.2

/-- Unfolding of the pairs loop at a `service_description` pair with a
scalar value. -/
theorem parentPairs_cons_sd (render : Dto → String) (desc : String) (p : Resource)
    (children : List Resource) (s : String) (rest : List (String × PValue)) :
    parentPairs render desc p children (("service_description", PValue.str s) :: rest) =
      if strIn desc (pyLower s) = true then
        match renderChildren render p children with
        | .error e => .error e
        | .ok out =>
          match parentPairs render desc p children rest with
          | .error e => .error e
          | .ok restOut => .ok (out.1 ++ restOut.1, out.2 ++ restOut.2)
      else parentPairs render desc p children rest := rfl

/-- The pairs loop of one parent candidate, characterized: under unique keys
and scalar `service_description` values it renders all children exactly when
the first-match lookup matches, and yields nothing otherwise. -/
theorem parentPairs_char (render : Dto → String) (desc : String) (p : Resource)
    (children : List Resource) :
    ∀ l, (∀ kv ∈ l, kv.1 = "service_description" → isList kv.2 = false) →
      (List.map Prod.fst l).Nodup →
      (pMatchesL desc l = true →
        keysOk p = true ∧ ∀ c ∈ children, keysOk c = true) →
      parentPairs render desc p children l =
        if pMatchesL desc l = true
        then .ok (concatRendered render (children.map (mkDepDtoTotal p)),
                  children.map (mkDepDtoTotal p))
        else .ok ("", []) := by
  intro l
  induction l with
  | nil => intro _ _ _; rfl
  | cons kv rest ih =>
    intro hsd hnd hP
    obtain ⟨k, v⟩ := kv
    simp only [List.map_cons, List.nodup_cons] at hnd
    by_cases hk : k = "service_description"
    · subst hk
      have hv : isList v = false :=
        hsd ("service_description", v) (List.mem_cons_self _ _) rfl
      cases v with
      | list xs => simp [isList] at hv
      | str s =>
        have hrest : ¬ "service_description" ∈ List.map Prod.fst rest := hnd.1
        have hm : pMatchesL desc (("service_description", PValue.str s) :: rest) =
            strIn desc (pyLower s) := by
          unfold pMatchesL
          simp [List.lookup]
        rw [parentPairs_cons_sd, hm]
        cases hs : strIn desc (pyLower s) with
        | true =>
          have hPm : pMatchesL desc (("service_description", PValue.str s) :: rest) =
              true := by rw [hm, hs]
          obtain ⟨hkp, hkc⟩ := hP hPm
          rw [renderChildren_ok render p hkp children hkc,
            parentPairs_no_sd render desc p children rest hrest]
          simp
        | false =>
          rw [parentPairs_no_sd render desc p children rest hrest]
          simp
    · unfold parentPairs
      rw [if_neg hk, pMatchesL_cons_ne desc k v rest hk]
      exact ih (fun kv2 hkv2 hsd2 => hsd kv2 (List.mem_cons_of_mem _ hkv2) hsd2)
        hnd.2 (fun hm => hP (by rw [pMatchesL_cons_ne desc k v rest hk]; exact hm))

/-- Rendered-fragment concatenation distributes over list append. -/
theorem concatRendered_append (render : Dto → String) :
    ∀ (a b : List Dto),
      concatRendered render (a ++ b) =
        concatRendered render a ++ concatRendered render b := by
  intro a b
  induction a with
  | nil => simp [concatRendered]
  | cons d ds ih => simp [concatRendered, ih, String.append_assoc]

/-- The parent scan, characterized, when the left-over gate variable is
visible: every parent whose first-match `service_description` lookup
lower-contains the description contributes one dependency DTO per child, in
order, with no de-duplication; parents without a match contribute nothing. -/
theorem scanParents_char (render : Dto → String) (ls : String) (lastR : Resource)
    (desc : String) (children : List Resource)
    (hv : is_resource_visible lastR ls = true)
    (hch : ∀ c ∈ children, keysOk c = true) :
    ∀ parents,
      (∀ p ∈ parents,
        (∀ kv ∈ p.parameters, kv.1 = "service_description" → isList kv.2 = false) ∧
          (List.map Prod.fst p.parameters).Nodup) →
      (∀ p ∈ parents, pMatches desc p = true → keysOk p = true) →
      scanParents render ls lastR desc children parents =
        .ok (concatRendered render ((parents.filter (pMatches desc)).flatMap
              (fun p => children.map (mkDepDtoTotal p))),
             (parents.filter (pMatches desc)).flatMap
              (fun p => children.map (mkDepDtoTotal p))) := by
  intro parents
  induction parents with
  | nil => intro _ _; rfl
  | cons p rest ih =>
    intro h1 h2
    unfold scanParents
    rw [if_pos hv]
    have hpp := parentPairs_char render desc p children p.parameters
      (h1 p (List.mem_cons_self p rest)).1 (h1 p (List.mem_cons_self p rest)).2
      (fun hm => ⟨h2 p (List.mem_cons_self p rest) hm, hch⟩)
    rw [hpp,
      ih (fun q hq => h1 q (List.mem_cons_of_mem p hq))
        (fun q hq => h2 q (List.mem_cons_of_mem p hq))]
    cases hm : pMatches desc p with
    | true =>
      rw [show pMatchesL desc p.parameters = true from hm]
      simp [List.filter_cons, hm, concatRendered_append, String.append_assoc]
    | false =>
      rw [show pMatchesL desc p.parameters = false from hm]
      simp [List.filter_cons, hm]

/-- The dependency-entry loop, characterized, when the left-over gate
variable is visible. -/
theorem depEntries_char (render : Dto → String) (ls : String) (lastR : Resource)
    (resources : List Resource)
    (hv : is_resource_visible lastR ls = true)
    (hres : ∀ p ∈ resources,
      (∀ kv ∈ p.parameters, kv.1 = "service_description" → isList kv.2 = false) ∧
        (List.map Prod.fst p.parameters).Nodup) :
    ∀ deps,
      (∀ e ∈ deps, ∀ p ∈ resources,
        pMatches (pyReplaceUS e.1) p = true → keysOk p = true) →
      (∀ e ∈ deps, ∀ c ∈ e.2, keysOk c = true) →
      depEntries render ls lastR resources deps =
        .ok (concatRendered render (depDtosSpec resources deps),
             depDtosSpec resources deps) := by
  intro deps
  induction deps with
  | nil => intro _ _; rfl
  | cons e rest ih =>
    intro hm hc
    obtain ⟨k, children⟩ := e
    unfold depEntries
    rw [scanParents_char render ls lastR (pyReplaceUS k) children hv
        (hc (k, children) (List.mem_cons_self _ _)) resources hres
        (hm (k, children) (List.mem_cons_self _ _)),
      ih (fun e2 he2 => hm e2 (List.mem_cons_of_mem _ he2))
        (fun e2 he2 => hc e2 (List.mem_cons_of_mem _ he2))]
    unfold depDtosSpec entryDtos
    simp [concatRendered_append, String.append_assoc]

/-- C7 counterexample: the batch `[fxP, fxCinv]` ends in an invisible
resource; `fxP` is a parent whose `service_description` contains the derived
description and `fxCinv` was collected as a child under the map key, yet the
returned output holds the selector fragment only — zero `servicedependency`
DTOs are emitted, where the claim demands one per (parent, child) pair. -/
theorem c7_counterexample :
    render_resources fxSelect [] "nagios_service" "true" ["n"] [fxP, fxCinv] =
      ([], .ok (some ("X\n", [buildDto "service" false [] fxP]))) ∧
    pMatches (pyReplaceUS "db_primary_check") fxP = true ∧
    lookupDep (selectorPass fxTemplate "service" false [] "true" [fxP, fxCinv]).deps
      "db_primary_check" = [fxCinv] :=
  ⟨rfl, rfl, rfl⟩

/-- C7 (amended): provided the visibility gate passes — i.e. the last
resource of the selector loop is visible — and every resource's
`service_description` parameter is scalar, parameter keys are unique (Python
dicts), matched parents carry `host_name` and collected children carry both
indexed keys, the linker derives each parent description by replacing `_`
with spaces in the map key, scans the full resource list, and emits one
`servicedependency` DTO per (matching parent, collected child) pair — the
match being that the lower-cased parameter value contains the description —
in map order, with no de-duplication; a description matching no parent
yields no fragments and no error. -/
theorem c7_dep_emission (render : Dto → String) (ls : String) (lastR : Resource)
    (resources : List Resource) (deps : DepMap)
    (hv : is_resource_visible lastR ls = true)
    (hres : ∀ p ∈ resources,
      (∀ kv ∈ p.parameters, kv.1 = "service_description" → isList kv.2 = false) ∧
        (List.map Prod.fst p.parameters).Nodup)
    (hmat : ∀ e ∈ deps, ∀ p ∈ resources,
      pMatches (pyReplaceUS e.1) p = true → keysOk p = true)
    (hch : ∀ e ∈ deps, ∀ c ∈ e.2, keysOk c = true) :
    depPass render ls (some lastR) resources deps =
      .ok (concatRendered render (depDtosSpec resources deps),
           depDtosSpec resources deps) := by
  by_cases h : deps.length > 0
  · unfold depPass
    rw [if_pos h]
    exact depEntries_char render ls lastR resources hv hres deps hmat hch
  · have hd : deps = [] := by
      cases deps
      · rfl
      · simp at h
    subst hd
    rfl

/-- Witness for C7 at a concrete input with one matching parent and one
collected child. -/
theorem c7_witness :
    is_resource_visible fxCvis "true" = true ∧
    depPass fxTemplate "true" (some fxCvis) [fxP, fxCvis]
        [("db_primary_check", [fxCvis])] =
      .ok (concatRendered fxTemplate
            (depDtosSpec [fxP, fxCvis] [("db_primary_check", [fxCvis])]),
           depDtosSpec [fxP, fxCvis] [("db_primary_check", [fxCvis])]) :=
  ⟨by decide,
    c7_dep_emission fxTemplate "true" fxCvis [fxP, fxCvis]
      [("db_primary_check", [fxCvis])] (by decide) (by decide) (by decide) (by decide)⟩

/-- C10 counterexample: with batch `[fxChild, fxBad]` there is no matched
parent at all and the one collected child carries both indexed keys — the
claim's precondition holds — yet the dependency pass still raises
`AttributeError`, because the scan lower-cases the sequence-valued
`service_description` of the unmatched candidate `fxBad`. -/
theorem c10_counterexample :
    render_resources fxSelect [] "nagios_service" "true" ["n"] [fxChild, fxBad] =
      ([], .error (.attributeError "lower")) ∧
    List.filter (pMatches (pyReplaceUS "foo")) [fxChild, fxBad] = [] ∧
    keysOk fxChild = true ∧
    lookupDep (selectorPass fxTemplate "service" false [] "true" [fxChild, fxBad]).deps
      "foo" = [fxChild] :=
  ⟨rfl, rfl, rfl, rfl⟩

/-- C10 (amended): the dependency pass indexes the four parameters without
guards and lower-cases every scanned `service_description` value; its error
branch is unreachable when every fetched resource's `service_description`
parameter is scalar, parameter keys are unique, matched parents carry
`host_name` and collected children carry both indexed keys; outside that
precondition the pass raises — e.g. a collected child without `host_name`
makes `render_resources` fail for the whole type with a `KeyError` instead
of skipping the pair. -/
theorem c10_dep_guards :
    (∀ (render : Dto → String) (ls : String) (lastR : Resource)
        (resources : List Resource) (deps : DepMap),
      (∀ p ∈ resources,
        (∀ kv ∈ p.parameters, kv.1 = "service_description" → isList kv.2 = false) ∧
          (List.map Prod.fst p.parameters).Nodup) →
      (∀ e ∈ deps, ∀ p ∈ resources,
        pMatches (pyReplaceUS e.1) p = true → keysOk p = true) →
      (∀ e ∈ deps, ∀ c ∈ e.2, keysOk c = true) →
      ∃ v, depPass render ls (some lastR) resources deps = .ok v) ∧
    render_resources fxSelect [] "nagios_service" "true" ["n"] [fxP, fxCnok] =
      ([], .error (.keyError "host_name")) := by
  constructor
  · intro render ls lastR resources deps hres hmat hch
    cases hv : is_resource_visible lastR ls with
    | false => exact ⟨("", []), depPass_not_visible render ls lastR resources hv deps⟩
    | true =>
      by_cases h : deps.length > 0
      · refine ⟨(concatRendered render (depDtosSpec resources deps),
          depDtosSpec resources deps), ?_⟩
        unfold depPass
        rw [if_pos h]
        exact depEntries_char render ls lastR resources hv hres deps hmat hch
      · have hd : deps = [] := by
          cases deps
          · rfl
          · simp at h
        subst hd
        exact ⟨("", []), rfl⟩
  · rfl

/-- Witness for C10 at a concrete input satisfying the precondition. -/
theorem c10_witness :
    ∃ v, depPass fxTemplate "true" (some fxCvis) [fxP, fxCvis]
      [("db_primary_check", [fxCvis])] = .ok v :=
  c10_dep_guards.1 fxTemplate "true" fxCvis [fxP, fxCvis]
    [("db_primary_check", [fxCvis])] (by decide) (by decide) (by decide)
